import Mathlib

/-
Verification of the Moonquakes embedding boundary, as found in
include/moonquakes.h and src/api/c/moonquakes.c.

The C sources implement mq_newstate and mq_close, and define the mq_pop
convenience macro together with the outcome-code enumeration. The
operations mq_gettop, mq_settop, mq_gc_collect and mq_version are declared
in moonquakes.h but no implementation of them is part of the current
sources; those operations, and the value stack they act on, are modelled
from the specification, as marked on each definition.
-/

namespace Moonquakes

/-- Modelled from the spec: one stack slot's content; no concrete variant
set is fixed yet, so the model carries only the neutral/empty value nil
used to fill newly exposed slots. -/
inductive Value where
  | nil : Value
deriving DecidableEq

/-- The interpreter state. The C struct mq_State holds a single placeholder
pointer, void* internal, with NULL modelled as none. The stack field is
modelled from the spec: the value stack exclusively owned by the state,
created with the state at count 0, since the stack operations declared in
moonquakes.h are not implemented in the current sources. -/
structure mq_State where
  internal : Option Nat
  stack : List Value
deriving DecidableEq

/-- The zero-initialized mq_State, as produced by calloc(1, sizeof(mq_State)):
the placeholder pointer is NULL and no stack slot is occupied. -/
def calloc_mq_State : mq_State :=
  { internal := none, stack := [] }

/-- mq_newstate from src/api/c/moonquakes.c. The allocOk argument models
whether calloc succeeds. On failure the function returns NULL, modelled as
none. On success the zero-initialized struct has its internal field set to
NULL explicitly and the handle is returned. -/
def mq_newstate (allocOk : Bool) : Option mq_State :=
  if allocOk then
    let L := calloc_mq_State
    some { L with internal := none }
  else
    none

/-- The allocated states of the process, indexed by address: the model in
which mq_close on a NULL handle can be observed to touch no state. -/
abbrev World : Type := List (Nat × mq_State)

/-- mq_close from src/api/c/moonquakes.c, acting on the world of allocated
states. A NULL handle returns immediately; a live handle has its internal
field cleared and is then freed, that is, removed from the world. -/
def mq_close (h : Option Nat) (w : World) : World :=
  match h with
  | none => w
  | some a =>
      (w.map (fun c => if c.1 = a then (c.1, { c.2 with internal := none }) else c)).filter
        (fun c => c.1 != a)

/-- Modelled from the spec: mq_gettop returns the current occupied-slot
count of the value stack, an int that is always nonnegative. Declared in
moonquakes.h; no implementation is present in the current sources. -/
def mq_gettop (L : mq_State) : Int :=
  (L.stack.length : Int)

/-- Sets the occupied-slot count of a stack to exactly m, keeping the
bottom slots: slots truncated away are released, newly exposed slots are
filled with the neutral value nil. -/
def setCount (s : List Value) (m : Nat) : List Value :=
  s.take m ++ List.replicate (m - s.length) Value.nil

/-- Modelled from the spec: mq_settop. If n is nonnegative, the occupied
count becomes exactly n; if n is negative, the new count is
currentTop + n + 1, relative to the current top. The spec leaves the
policy open when that computed count would be negative; this model clamps
to zero via Int.toNat, a choice invisible to claims that restrict to
nonnegative resulting counts. Declared in moonquakes.h; no implementation
is present in the current sources. -/
def mq_settop (L : mq_State) (n : Int) : mq_State :=
  if 0 ≤ n then
    { L with stack := setCount L.stack n.toNat }
  else
    { L with stack := setCount L.stack ((L.stack.length : Int) + n + 1).toNat }

/-- The mq_pop convenience macro from moonquakes.h:
mq_pop(L, n) is mq_settop(L, -(n) - 1). -/
def mq_pop (L : mq_State) (n : Int) : mq_State :=
  mq_settop L (-n - 1)

/-- Modelled from the spec: mq_gc_collect requests a full synchronous
collection cycle; in the current scope the heap holds no objects, so the
operation is an intentional no-op on the state. Declared in moonquakes.h;
no implementation is present in the current sources. -/
def mq_gc_collect (L : mq_State) : mq_State :=
  L

/-- Modelled from the spec: mq_version returns a stable, immutable
identifying string for the runtime build; the header names the build
Moonquakes 0.1.1. Declared in moonquakes.h; no implementation is present
in the current sources. -/
def mq_version : String :=
  "Moonquakes 0.1.1"

/-- One call to mq_version observed against the world of allocated states:
it produces the version string and leaves every state untouched. -/
def mq_version_call (w : World) : String × World :=
  (mq_version, w)

/-- The outcome-code enumeration from moonquakes.h, Lua 5.4 compatible:
MQ_OK, MQ_YIELD, MQ_ERRRUN, MQ_ERRSYNTAX, MQ_ERRMEM, MQ_ERRERR,
MQ_ERRFILE. -/
inductive mq_Code where
  | MQ_OK
  | MQ_YIELD
  | MQ_ERRRUN
  | MQ_ERRSYNTAX
  | MQ_ERRMEM
  | MQ_ERRERR
  | MQ_ERRFILE
deriving DecidableEq, Fintype

/-- The numeric value each outcome code carries in the C enum of
moonquakes.h. -/
def mq_Code.val : mq_Code → Nat
  | .MQ_OK => 0
  | .MQ_YIELD => 1
  | .MQ_ERRRUN => 2
  | .MQ_ERRSYNTAX => 3
  | .MQ_ERRMEM => 4
  | .MQ_ERRERR => 5
  | .MQ_ERRFILE => 6

/-- A sample state with three occupied slots, used to instantiate
hypotheses of the stack theorems at a concrete input. -/
def sampleState : mq_State :=
  { internal := none, stack := List.replicate 3 Value.nil }

/-- The length of setCount s m is exactly m. -/
theorem setCount_length (s : List Value) (m : Nat) : (setCount s m).length = m := by
  unfold setCount
  rw [List.length_append, List.length_take, List.length_replicate]
  omega

end Moonquakes

namespace Moonquakes

/-- C1: mq_newstate returns either a new, fully initialized state whose
value stack is empty, or the absent handle none when allocation fails;
no partially initialized handle is ever returned. -/
theorem mq_newstate_fully_initialized_or_none (b : Bool) :
    (b = false ∧ mq_newstate b = none) ∨
    (b = true ∧ ∃ L : mq_State, mq_newstate b = some L ∧
      L.stack = [] ∧ L.internal = none) := by
  cases b with
  | false => exact Or.inl ⟨rfl, rfl⟩
  | true => exact Or.inr ⟨rfl, calloc_mq_State, rfl, rfl, rfl⟩

/-- C2: mq_close on the absent handle is a no-op: it is total, never
fails, and has no observable effect on any allocated state. -/
theorem mq_close_null_noop (w : World) : mq_close none w = w :=
  rfl

/-- C3: for every state returned by a successful mq_newstate, mq_gettop
of that state is 0. -/
theorem mq_gettop_after_newstate (b : Bool) (L : mq_State)
    (h : mq_newstate b = some L) : mq_gettop L = 0 := by
  cases b with
  | false => exact absurd h (by simp [mq_newstate])
  | true =>
      have hL : L = calloc_mq_State := by
        have := h
        simp [mq_newstate, calloc_mq_State] at this
        cases this
        rfl
      rw [hL]
      rfl

/-- C3 witness: the theorem applied to the state freshly returned by
mq_newstate true. -/
theorem mq_gettop_after_newstate_witness : mq_gettop calloc_mq_State = 0 :=
  mq_gettop_after_newstate true calloc_mq_State rfl

/-- C4: for every state and every n that is not negative, mq_settop
followed by mq_gettop yields exactly n, and the newly exposed slots past
the previous top are all filled with the neutral value nil. -/
theorem mq_settop_nonneg_sets_top (L : mq_State) (n : Int) (h : 0 ≤ n) :
    mq_gettop (mq_settop L n) = n ∧
    (mq_settop L n).stack.drop L.stack.length =
      List.replicate (n.toNat - L.stack.length) Value.nil := by
  unfold mq_settop
  rw [if_pos h]
  constructor
  · unfold mq_gettop
    simp only [setCount_length]
    exact Int.toNat_of_nonneg h
  · simp only
    unfold setCount
    rcases Nat.le_total n.toNat L.stack.length with hle | hge
    · rw [Nat.sub_eq_zero_of_le hle, List.replicate_zero, List.append_nil]
      exact List.drop_eq_nil_of_le (by rw [List.length_take]; omega)
    · rw [List.take_of_length_le hge]
      exact List.drop_left L.stack _

/-- C4 witness: the theorem applied at a concrete state with three slots
and n equal to five. -/
theorem mq_settop_nonneg_sets_top_witness :
    mq_gettop (mq_settop sampleState 5) = 5 :=
  (mq_settop_nonneg_sets_top sampleState 5 (by decide)).1

/-- C5: for every state and every negative n with currentTop + n + 1
nonnegative, mq_settop sets the top count to currentTop + n + 1; in
particular n equal to -1 leaves the state unchanged, and n equal to
-(k + 1) removes exactly the top k entries, keeping the bottom
currentTop - k. -/
theorem mq_settop_negative_relative (L : mq_State) (n : Int) (hn : n < 0)
    (h : 0 ≤ mq_gettop L + n + 1) :
    mq_gettop (mq_settop L n) = mq_gettop L + n + 1 ∧
    mq_settop L (-1) = L ∧
    ∀ k : Nat, k ≤ L.stack.length →
      (mq_settop L (-(k : Int) - 1)).stack = L.stack.take (L.stack.length - k) := by
  refine ⟨?_, ?_, ?_⟩
  · unfold mq_settop
    rw [if_neg (not_le.mpr hn)]
    unfold mq_gettop at h ⊢
    simp only [setCount_length]
    omega
  · unfold mq_settop
    rw [if_neg (by norm_num : ¬ (0 ≤ (-1 : Int)))]
    have ht : ((L.stack.length : Int) + (-1) + 1).toNat = L.stack.length := by omega
    rw [ht]
    unfold setCount
    rw [Nat.sub_self, List.replicate_zero, List.append_nil, List.take_length]
  · intro k hk
    unfold mq_settop
    rw [if_neg (by omega : ¬ (0 ≤ -(k : Int) - 1))]
    have ht : ((L.stack.length : Int) + (-(k : Int) - 1) + 1).toNat =
        L.stack.length - k := by omega
    rw [ht]
    unfold setCount
    have hz : L.stack.length - k - L.stack.length = 0 := by omega
    simp only [hz, List.replicate_zero, List.append_nil]

/-- C5 witness: the theorem applied at a concrete state with three slots
and n equal to -2, checking the resulting top count. -/
theorem mq_settop_negative_relative_witness :
    mq_gettop (mq_settop sampleState (-2)) = mq_gettop sampleState + (-2) + 1 :=
  (mq_settop_negative_relative sampleState (-2) (by decide) (by decide)).1

/-- C6: mq_pop is definitionally mq_settop at -(n) - 1, exactly as the
macro in moonquakes.h states, and for every k between 0 and the current
top, mq_pop of k coincides with mq_settop at currentTop - k, removing
exactly the top k entries. -/
theorem mq_pop_settop_equiv (L : mq_State) (k : Int) (h0 : 0 ≤ k)
    (hk : k ≤ mq_gettop L) :
    (∀ n : Int, mq_pop L n = mq_settop L (-n - 1)) ∧
    mq_pop L k = mq_settop L (mq_gettop L - k) := by
  constructor
  · intro n
    rfl
  · unfold mq_gettop at hk ⊢
    unfold mq_pop mq_settop
    rw [if_neg (by omega : ¬ (0 ≤ -k - 1)),
      if_pos (by omega : (0 : Int) ≤ (L.stack.length : Int) - k)]
    have ht : ((L.stack.length : Int) + (-k - 1) + 1).toNat =
        ((L.stack.length : Int) - k).toNat := by omega
    rw [ht]

/-- C6 witness: the theorem applied at a concrete state with three slots
and k equal to two. -/
theorem mq_pop_settop_equiv_witness :
    mq_pop sampleState 2 = mq_settop sampleState (mq_gettop sampleState - 2) :=
  (mq_pop_settop_equiv sampleState 2 (by decide) (by decide)).2

/-- C7: mq_gc_collect may be called any number of times in succession on
any valid state, including one fresh from creation: the state, and hence
the value mq_gettop reports, is unchanged. -/
theorem mq_gc_collect_idempotent_noop (L : mq_State) (n : Nat) :
    mq_gc_collect^[n] L = L ∧
    mq_gettop (mq_gc_collect^[n] L) = mq_gettop L := by
  have hfix : mq_gc_collect^[n] L = L := Function.iterate_fixed rfl n
  exact ⟨hfix, by rw [hfix]⟩

/-- C8: mq_version is pure and deterministic: any two calls, against any
worlds of allocated states, return the same string, and a call leaves the
world of states untouched. -/
theorem mq_version_pure_deterministic (w v : World) :
    (mq_version_call w).1 = (mq_version_call v).1 ∧
    (mq_version_call w).2 = w :=
  ⟨rfl, rfl⟩

/-- C9: the outcome-code space is a fixed enumeration of exactly seven
codes with stable distinct values 0 through 6 in order, and every code at
the boundary carries one of those seven values, each value being reached
by exactly one code. -/
theorem mq_outcome_codes_enumeration :
    (mq_Code.val .MQ_OK = 0 ∧ mq_Code.val .MQ_YIELD = 1 ∧
     mq_Code.val .MQ_ERRRUN = 2 ∧ mq_Code.val .MQ_ERRSYNTAX = 3 ∧
     mq_Code.val .MQ_ERRMEM = 4 ∧ mq_Code.val .MQ_ERRERR = 5 ∧
     mq_Code.val .MQ_ERRFILE = 6) ∧
    (∀ a b : mq_Code, mq_Code.val a = mq_Code.val b → a = b) ∧
    (∀ c : mq_Code, mq_Code.val c < 7) ∧
    (∀ m : Nat, m < 7 → ∃ c : mq_Code, mq_Code.val c = m) := by
  refine ⟨⟨rfl, rfl, rfl, rfl, rfl, rfl, rfl⟩, ?_, ?_, ?_⟩
  · intro a b
    cases a <;> cases b <;> simp [mq_Code.val]
  · intro c
    cases c <;> simp [mq_Code.val]
  · intro m hm
    interval_cases m
    · exact ⟨.MQ_OK, rfl⟩
    · exact ⟨.MQ_YIELD, rfl⟩
    · exact ⟨.MQ_ERRRUN, rfl⟩
    · exact ⟨.MQ_ERRSYNTAX, rfl⟩
    · exact ⟨.MQ_ERRMEM, rfl⟩
    · exact ⟨.MQ_ERRERR, rfl⟩
    · exact ⟨.MQ_ERRFILE, rfl⟩

/-- C10: every non-null handle returned by mq_newstate carries the
zero-initialized struct: the internal placeholder pointer is NULL and the
state carries no internal component. -/
theorem mq_newstate_internal_null (b : Bool) (L : mq_State)
    (h : mq_newstate b = some L) :
    L.internal = none ∧ L = calloc_mq_State := by
  cases b with
  | false => exact absurd h (by simp [mq_newstate])
  | true =>
      have hL : L = calloc_mq_State := by
        have := h
        simp [mq_newstate, calloc_mq_State] at this
        cases this
        rfl
      exact ⟨by rw [hL]; rfl, hL⟩

/-- C10 witness: the theorem applied to the state freshly returned by
mq_newstate true. -/
theorem mq_newstate_internal_null_witness :
    calloc_mq_State.internal = none ∧ calloc_mq_State = calloc_mq_State :=
  mq_newstate_internal_null true calloc_mq_State rfl

end Moonquakes
